import Mathlib

/-!
Verification of the django-todo CRUD application.

Shallow embedding of `todo/models.py` and `todo/views.py`: the persistent
table of `ToDoItem` rows is a `Store` (insertion-ordered list of rows plus
the id sequence and a clock supplying `auto_now_add` timestamps), the form
data `request.POST` is an association list of string key/value pairs, and
each view function becomes a Lean function from the store and the request
data to the new store and the HTTP response.
-/

set_option autoImplicit false

namespace Todo

/-- One row of the `todo_todoitem` table (`ToDoItem` in `models.py`):
primary key `id`, `text = CharField(max_length=255)`,
`created_on = DateTimeField(auto_now_add=True)` modelled as a `Nat` tick,
and `completed = BooleanField(default=False)`. -/
structure Item where
  id : Nat
  text : String
  created_on : Nat
  completed : Bool
  deriving Repr, DecidableEq

/-- The database: rows in insertion (rowid) order, the next value of the
primary-key sequence, and the current clock tick.  The clock strictly
advances between requests, so `auto_now_add` timestamps of successive
creations are strictly increasing (real wall-clock timestamps at
microsecond resolution). -/
structure Store where
  items : List Item
  nextId : Nat
  clock : Nat
  deriving Repr, DecidableEq

/-- The store of a fresh database. -/
def emptyStore : Store := { items := [], nextId := 1, clock := 0 }

/-- Form data of a request: `request.POST` as an association list. -/
def PostData := List (String × String)

/-- `request.POST.get(k)` / `request.POST[k]` lookup: the value bound to
key `k`, or `none` when the key was not submitted. -/
def postGet (post : PostData) (k : String) : Option String :=
  (List.find? (fun kv => kv.1 == k) post).map (fun kv => kv.2)

/-- The membership test `k in request.POST`. -/
def postContains (post : PostData) (k : String) : Bool :=
  List.any post (fun kv => kv.1 == k)

/-- The numeric value of a decimal digit character, `none` otherwise. -/
def digit? (c : Char) : Option Nat :=
  if 48 ≤ c.toNat ∧ c.toNat ≤ 57 then some (c.toNat - 48) else none

/-- Accumulating decimal parse of a digit sequence. -/
def parseNatAux : Nat → List Char → Option Nat
  | acc, [] => some acc
  | acc, c :: cs =>
    match digit? c with
    | none => none
    | some d => parseNatAux (acc * 10 + d) cs

/-- The integer conversion Django applies to a pk form value: the decimal
value of the string, or `none` (a `ValueError`) when the string is empty
or holds a non-digit. -/
def parseNat? (s : String) : Option Nat :=
  match s.data with
  | [] => none
  | cs => parseNatAux 0 cs

/-- The HTTP response a view returns: `redirect(target)` (302),
`render(request, template, {"items": items})` (200), the `Http404`
page raised by `get_object_or_404`, or the 500 page Django produces
for an unhandled exception (`KeyError` from `request.POST[k]`,
`ValueError` from an invalid primary-key literal). -/
inductive Response where
  | redirect (target : String)
  | rendered (template : String) (items : List Item)
  | notFound
  | serverError
  deriving Repr, DecidableEq

/-- Insert a row into a list already sorted by `created_on` descending,
keeping it after earlier-inserted rows with the same timestamp. -/
def insertDesc (x : Item) : List Item → List Item
  | [] => [x]
  | y :: ys => if x.created_on ≥ y.created_on then x :: y :: ys else y :: insertDesc x ys

/-- `ToDoItem.objects.order_by("-created_on")`: the rows sorted by
`created_on` descending; rows with equal timestamps stay in rowid
(insertion) order. -/
def orderByCreatedOnDesc : List Item → List Item
  | [] => []
  | x :: xs => insertDesc x (orderByCreatedOnDesc xs)

/-- `index` view: render `todo/index.html` with all items newest first. -/
def index (s : Store) : Response :=
  Response.rendered "todo/index.html" (orderByCreatedOnDesc s.items)

/-- `create` view: `ToDoItem(text=request.POST["text"])`, an explicit
`item.completed = False`, then `item.save()` (which assigns the next id
and stamps `created_on` via `auto_now_add`) and a redirect to the list.
A missing `text` key makes `request.POST["text"]` raise `KeyError`,
which Django surfaces as a 500 response with nothing saved.  No
validation runs: `save()` does not call `full_clean()`, so empty or
over-long text is persisted as-is. -/
def create (s : Store) (post : PostData) : Store × Response :=
  match postGet post "text" with
  | none => (s, Response.serverError)
  | some t =>
      let item : Item := { id := s.nextId, text := t, created_on := s.clock, completed := false }
      ({ items := s.items ++ [item], nextId := s.nextId + 1, clock := s.clock + 1 },
       Response.redirect "todo:list")

/-- `delete` view: `ToDoItem.objects.filter(pk=request.POST["id"]).delete()`
then a redirect.  `filter(...).delete()` removes every matching row and
raises nothing when no row matches, so the operation is idempotent.
A missing `id` key raises `KeyError` (500); a non-numeric literal makes
the pk lookup raise `ValueError` (500). -/
def delete (s : Store) (post : PostData) : Store × Response :=
  match postGet post "id" with
  | none => (s, Response.serverError)
  | some idStr =>
    match parseNat? idStr with
    | none => (s, Response.serverError)
    | some pk =>
        ({ s with items := s.items.filter (fun it => it.id ≠ pk) },
         Response.redirect "todo:list")

/-- `update` view: only a POST request touches the store.  It looks the
row up with `get_object_or_404(ToDoItem, pk=request.POST.get("id"))`
(a missing or unmatched id yields the 404 page, an invalid literal a
500), then overwrites `completed` with the presence of the `completed`
key, overwrites `text` with `request.POST.get("text", item.text)`, and
saves.  Saving an existing row keeps its rowid, id and `created_on`
(`auto_now_add` only fires on insert).  Any request method other than
POST skips the body and just redirects. -/
def update (s : Store) (method : String) (post : PostData) : Store × Response :=
  if method = "POST" then
    match postGet post "id" with
    | none => (s, Response.notFound)
    | some idStr =>
      match parseNat? idStr with
      | none => (s, Response.serverError)
      | some pk =>
        match List.find? (fun it => it.id == pk) s.items with
        | none => (s, Response.notFound)
        | some item =>
            let item' : Item :=
              { item with
                completed := postContains post "completed",
                text := (postGet post "text").getD item.text }
            ({ s with items := s.items.map (fun it => if it.id == pk then item' else it) },
             Response.redirect "todo:list")
  else (s, Response.redirect "todo:list")

/-- Well-formedness of a reachable store: every row's id is below the id
sequence, every timestamp is below the clock, and ids are unique. -/
def Store.wf (s : Store) : Prop :=
  (∀ it ∈ s.items, it.id < s.nextId) ∧
  (∀ it ∈ s.items, it.created_on < s.clock) ∧
  s.items.Pairwise (fun a b => a.id ≠ b.id)

/-- A store used to instantiate theorems: one row, id 1, completed. -/
def demoStore : Store := { items := [⟨1, "task", 0, true⟩], nextId := 2, clock := 1 }

theorem insertDesc_perm (x : Item) (l : List Item) :
    List.Perm (insertDesc x l) (x :: l) := by
  induction l with
  | nil => exact List.Perm.refl _
  | cons y ys ih =>
    by_cases h : x.created_on ≥ y.created_on
    · simp [insertDesc, h]
    · simp only [insertDesc, if_neg h]
      exact (ih.cons y).trans (List.Perm.swap x y ys)

theorem orderBy_perm (l : List Item) :
    List.Perm (orderByCreatedOnDesc l) l := by
  induction l with
  | nil => exact List.Perm.refl _
  | cons x xs ih => exact (insertDesc_perm x _).trans (ih.cons x)

theorem mem_orderBy_iff {it : Item} {l : List Item} :
    it ∈ orderByCreatedOnDesc l ↔ it ∈ l :=
  (orderBy_perm l).mem_iff

theorem find?_id_eq_some (pk : Nat) (it : Item) :
    ∀ l : List Item, l.Pairwise (fun a b => a.id ≠ b.id) → it ∈ l → it.id = pk →
      List.find? (fun a => a.id == pk) l = some it := by
  intro l
  induction l with
  | nil => simp
  | cons y ys ih =>
    intro hp hm hid
    rcases List.mem_cons.mp hm with h | h
    · subst h
      simp [List.find?_cons, hid]
    · have hy : y.id ≠ pk := fun hc =>
        (List.pairwise_cons.mp hp).1 it h (hc.trans hid.symm)
      have : (y.id == pk) = false := by simpa using hy
      simp only [List.find?_cons, this, cond_false]
      exact ih (List.pairwise_cons.mp hp).2 h hid

theorem mem_id_unique {l : List Item} (hp : l.Pairwise (fun a b => a.id ≠ b.id))
    {a b : Item} (ha : a ∈ l) (hb : b ∈ l) (h : a.id = b.id) : a = b := by
  induction l with
  | nil => cases ha
  | cons y ys ih =>
    rcases List.mem_cons.mp ha with h1 | h1 <;> rcases List.mem_cons.mp hb with h2 | h2
    · exact h1.trans h2.symm
    · exact absurd h (h1 ▸ (List.pairwise_cons.mp hp).1 b h2)
    · exact absurd h.symm (h2 ▸ (List.pairwise_cons.mp hp).1 a h1)
    · exact ih (List.pairwise_cons.mp hp).2 h1 h2

theorem update_post_found (s : Store) (post : PostData) (idStr : String) (pk : Nat) (it : Item)
    (hid : postGet post "id" = some idStr) (hp : parseNat? idStr = some pk)
    (hfind : List.find? (fun a => a.id == pk) s.items = some it) :
    update s "POST" post =
      ({ s with items := s.items.map (fun a => if a.id == pk then
            { it with completed := postContains post "completed",
                      text := (postGet post "text").getD it.text } else a) },
       Response.redirect "todo:list") := by
  simp [update, hid, hp, hfind]

theorem target_row_after_update (s : Store) (post : PostData) (idStr : String) (pk : Nat)
    (it : Item) (hpair : s.items.Pairwise fun a b => a.id ≠ b.id)
    (hid : postGet post "id" = some idStr) (hp : parseNat? idStr = some pk)
    (hmem : it ∈ s.items) (hpk : it.id = pk) :
    { it with completed := postContains post "completed",
              text := (postGet post "text").getD it.text } ∈ (update s "POST" post).1.items := by
  have hfind := find?_id_eq_some pk it s.items hpair hmem hpk
  rw [update_post_found s post idStr pk it hid hp hfind]
  refine List.mem_map.mpr ⟨it, hmem, ?_⟩
  simp [hpk]

/-- C1: for every existing Item and every update submission addressed to
it, the update handler sets the Item's `completed` flag to exactly the
presence of the `completed` key among the submitted fields — `true` when
the key is present (whatever its value), `false` when it is absent, no
matter what the flag was before (the prior value `it.completed` is
universally quantified and does not occur in the conclusion). -/
theorem C1_completed_is_key_presence (s : Store) (post : PostData) (idStr : String)
    (pk : Nat) (it : Item) (hpair : s.items.Pairwise fun a b => a.id ≠ b.id)
    (hid : postGet post "id" = some idStr) (hp : parseNat? idStr = some pk)
    (hmem : it ∈ s.items) (hpk : it.id = pk) :
    ∃ it', it' ∈ (update s "POST" post).1.items ∧ it'.id = pk ∧
      it'.completed = postContains post "completed" :=
  ⟨_, target_row_after_update s post idStr pk it hpair hid hp hmem hpk, hpk, rfl⟩

/-- C1 witness: the demo store's Item is completed; an update submission
without the `completed` key leaves a row with id 1 whose flag equals the
key's (absent) presence, i.e. `false`. -/
theorem C1_completed_is_key_presence_witness :
    ∃ it', it' ∈ (update demoStore "POST" [("id", "1"), ("text", "task")]).1.items ∧
      it'.id = 1 ∧
      it'.completed = postContains [("id", "1"), ("text", "task")] "completed" :=
  C1_completed_is_key_presence demoStore [("id", "1"), ("text", "task")] "1" 1
    ⟨1, "task", 0, true⟩ (by simp [demoStore]) rfl rfl (by simp [demoStore]) rfl

/-- C2: creating items A, then B, then C in a fresh store, the list view
renders exactly the sequence [C, B, A] — newest first by `created_on`
(the clock strictly advances between creations, so the three timestamps
are distinct; rows with equal timestamps would stay in insertion order,
as `insertDesc` keeps a row after earlier rows with the same stamp). -/
theorem C2_list_newest_first (tA tB tC : String) :
    index (create (create (create emptyStore
          [("text", tA)]).1 [("text", tB)]).1 [("text", tC)]).1
      = Response.rendered "todo/index.html"
          [⟨3, tC, 2, false⟩, ⟨2, tB, 1, false⟩, ⟨1, tA, 0, false⟩] := rfl

/-- C8: for every existing Item and update submission addressed to it,
the resulting row keeps the stored `text` when the `text` field is
absent from the submission, and carries the submitted value when the
field is present. -/
theorem C8_text_replaced_only_when_supplied (s : Store) (post : PostData) (idStr : String)
    (pk : Nat) (it : Item) (hpair : s.items.Pairwise fun a b => a.id ≠ b.id)
    (hid : postGet post "id" = some idStr) (hp : parseNat? idStr = some pk)
    (hmem : it ∈ s.items) (hpk : it.id = pk) :
    ∃ it', it' ∈ (update s "POST" post).1.items ∧ it'.id = pk ∧
      (postGet post "text" = none → it'.text = it.text) ∧
      (∀ t, postGet post "text" = some t → it'.text = t) := by
  refine ⟨_, target_row_after_update s post idStr pk it hpair hid hp hmem hpk, hpk, ?_, ?_⟩
  · intro h
    simp [h]
  · intro t h
    simp [h]

/-- C8 witness: updating the demo store's Item with no `text` field
yields a row with id 1 satisfying both text clauses. -/
theorem C8_text_replaced_only_when_supplied_witness :
    ∃ it', it' ∈ (update demoStore "POST" [("id", "1")]).1.items ∧ it'.id = 1 ∧
      (postGet [("id", "1")] "text" = none → it'.text = "task") ∧
      (∀ t, postGet [("id", "1")] "text" = some t → it'.text = t) :=
  C8_text_replaced_only_when_supplied demoStore [("id", "1")] "1" 1
    ⟨1, "task", 0, true⟩ (by simp [demoStore]) rfl rfl (by simp [demoStore]) rfl

/-- C10: a request to the update handler whose method is not POST leaves
the store exactly as it was and still answers with the redirect to the
list page. -/
theorem C10_non_post_update_is_noop (s : Store) (m : String) (post : PostData)
    (h : m ≠ "POST") :
    update s m post = (s, Response.redirect "todo:list") := by
  simp [update, h]

/-- C10 witness: a GET request to the update handler on the demo store. -/
theorem C10_non_post_update_is_noop_witness :
    update demoStore "GET" [("id", "1")] = (demoStore, Response.redirect "todo:list") :=
  C10_non_post_update_is_noop demoStore "GET" [("id", "1")] (by decide)

set_option maxRecDepth 4000 in
/-- C3 counterexample: the create handler performs no validation at all.
Creating with the empty string does not fail — it redirects (success)
and persists a row with empty text; creating with a 256-character text
also redirects and persists the over-long text unchanged.  `save()`
never calls `full_clean()`, so the `max_length=255` declaration is not
enforced on this path. -/
theorem C3_counterexample :
    (create emptyStore [("text", "")]).2 = Response.redirect "todo:list" ∧
    (create emptyStore [("text", "")]).1.items = [⟨1, "", 0, false⟩] ∧
    (create emptyStore [("text", String.mk (List.replicate 256 'a'))]).2
      = Response.redirect "todo:list" ∧
    ((create emptyStore [("text", String.mk (List.replicate 256 'a'))]).1.items.map
        (fun it => it.text.length)) = [256] :=
  ⟨rfl, rfl, rfl, rfl⟩

/-- C3 amended: `create` performs no emptiness or length validation —
for every submitted text, including the empty string and texts beyond
255 characters, it persists a new Item holding that exact text and
redirects to the list. -/
theorem C3_amended_create_never_validates (s : Store) (t : String) :
    (create s [("text", t)]).1.items = s.items ++ [⟨s.nextId, t, s.clock, false⟩] ∧
    (create s [("text", t)]).2 = Response.redirect "todo:list" :=
  ⟨rfl, rfl⟩

/-- C4: an update submission whose id matches no stored Item answers
with the not-found page (`get_object_or_404` raising `Http404`, not a
crash of the process) and leaves the store exactly as it was — no Item
is created or modified. -/
theorem C4_update_missing_id_not_found (s : Store) (post : PostData) (idStr : String)
    (pk : Nat) (hid : postGet post "id" = some idStr) (hp : parseNat? idStr = some pk)
    (habs : ∀ it ∈ s.items, it.id ≠ pk) :
    update s "POST" post = (s, Response.notFound) := by
  have hfind : List.find? (fun a => a.id == pk) s.items = none := by
    refine List.find?_eq_none.mpr fun a ha => ?_
    simpa using habs a ha
  simp [update, hid, hp, hfind]

/-- C4 witness: updating id 7, absent from the demo store. -/
theorem C4_update_missing_id_not_found_witness :
    update demoStore "POST" [("id", "7")] = (demoStore, Response.notFound) :=
  C4_update_missing_id_not_found demoStore [("id", "7")] "7" 7 rfl rfl
    (by simp [demoStore])

/-- C5: delete succeeds whether or not the id exists.  The first call
removes every row with the id and redirects; the second call on the
resulting store is a no-op that also redirects (no error surfaces); and
the rendered list afterwards never contains the deleted id. -/
theorem C5_delete_idempotent (s : Store) (idStr : String) (pk : Nat)
    (hp : parseNat? idStr = some pk) :
    (delete s [("id", idStr)]).1.items = s.items.filter (fun it => it.id ≠ pk) ∧
    (delete s [("id", idStr)]).2 = Response.redirect "todo:list" ∧
    delete (delete s [("id", idStr)]).1 [("id", idStr)]
      = ((delete s [("id", idStr)]).1, Response.redirect "todo:list") ∧
    ∀ it ∈ orderByCreatedOnDesc (delete s [("id", idStr)]).1.items, it.id ≠ pk := by
  have h1 : (delete s [("id", idStr)]).1.items = s.items.filter (fun it => it.id ≠ pk) := by
    simp [delete, postGet, hp]
  refine ⟨h1, by simp [delete, postGet, hp], ?_, ?_⟩
  · have h2 : (delete s [("id", idStr)]).1.items.filter (fun it => it.id ≠ pk)
        = (delete s [("id", idStr)]).1.items := by
      rw [h1]
      exact List.filter_eq_self.mpr fun a ha => (List.mem_filter.mp ha).2
    simp [delete, postGet, hp, h2]
  · intro it hit
    have hmem : it ∈ s.items.filter (fun a => a.id ≠ pk) :=
      h1 ▸ mem_orderBy_iff.mp hit
    simpa using (List.mem_filter.mp hmem).2

/-- C5 witness: deleting id 1 from the demo store twice. -/
theorem C5_delete_idempotent_witness :
    (delete demoStore [("id", "1")]).1.items
        = demoStore.items.filter (fun it => it.id ≠ 1) ∧
    (delete demoStore [("id", "1")]).2 = Response.redirect "todo:list" ∧
    delete (delete demoStore [("id", "1")]).1 [("id", "1")]
      = ((delete demoStore [("id", "1")]).1, Response.redirect "todo:list") ∧
    ∀ it ∈ orderByCreatedOnDesc (delete demoStore [("id", "1")]).1.items, it.id ≠ 1 :=
  C5_delete_idempotent demoStore "1" 1 rfl

/-- C6 counterexample: a create submission missing the `text` field does
not produce a client-error (4xx) response — `request.POST["text"]`
raises `KeyError`, which surfaces as Django's 500 server-error page.
(The store is indeed left untouched and nothing redirects.) -/
theorem C6_counterexample :
    create emptyStore [] = (emptyStore, Response.serverError) := rfl

/-- C6 amended: when the `text` field is missing from the submission,
create mutates nothing and answers with the 500 server-error page of
the unhandled `KeyError` — a server error, not a 4xx client error, and
not a redirect. -/
theorem C6_amended_missing_text_is_server_error (s : Store) (post : PostData)
    (h : postGet post "text" = none) :
    create s post = (s, Response.serverError) := by
  simp [create, h]

/-- C6 amended witness: a submission holding only an unrelated field. -/
theorem C6_amended_missing_text_is_server_error_witness :
    create demoStore [("other", "x")] = (demoStore, Response.serverError) :=
  C6_amended_missing_text_is_server_error demoStore [("other", "x")] rfl

/-- C7: in a well-formed store, creating a valid text appends exactly
one new Item — with that text, `completed = false` and a `created_on`
stamped with the store's clock (never null in the model: every row
carries a timestamp) — and the rendered list then contains that Item
exactly once. -/
theorem C7_create_then_list_has_one_new_item (s : Store) (t : String)
    (hwf : s.wf) (hne : t ≠ "") (hlen : t.length ≤ 255) :
    ∃ it : Item,
      (create s [("text", t)]).1.items = s.items ++ [it] ∧
      it.text = t ∧ it.completed = false ∧ it.created_on = s.clock ∧
      List.count it (orderByCreatedOnDesc (create s [("text", t)]).1.items) = 1 := by
  refine ⟨⟨s.nextId, t, s.clock, false⟩, rfl, rfl, rfl, rfl, ?_⟩
  rw [(orderBy_perm (create s [("text", t)]).1.items).count_eq]
  have hitems : (create s [("text", t)]).1.items
      = s.items ++ [⟨s.nextId, t, s.clock, false⟩] := rfl
  rw [hitems, List.count_append]
  have hnot : (⟨s.nextId, t, s.clock, false⟩ : Item) ∉ s.items := fun hmem => by
    have := hwf.1 _ hmem
    simp at this
  rw [List.count_eq_zero.mpr hnot]
  simp

/-- C7 witness: creating the text "b" in the demo store. -/
theorem C7_create_then_list_has_one_new_item_witness :
    demoStore.wf ∧ "b" ≠ "" ∧ ("b").length ≤ 255 ∧
    ∃ it : Item,
      (create demoStore [("text", "b")]).1.items = demoStore.items ++ [it] ∧
      it.text = "b" ∧ it.completed = false ∧ it.created_on = demoStore.clock ∧
      List.count it (orderByCreatedOnDesc (create demoStore [("text", "b")]).1.items) = 1 :=
  ⟨⟨by simp [demoStore], by simp [demoStore], by simp [demoStore]⟩, by decide, by decide,
    C7_create_then_list_has_one_new_item demoStore "b"
      ⟨by simp [demoStore], by simp [demoStore], by simp [demoStore]⟩ (by decide) (by decide)⟩

/-- C9: no handler ever rewrites an `id` or a `created_on`.  Whatever
the method and the submitted fields, the update handler leaves the
sequence of `(id, created_on)` pairs of the stored rows exactly as it
was — it can touch only `completed` and `text` — and the create handler
stamps the single new row once, with the current clock, leaving every
existing pair untouched (`auto_now_add` fires only on insert). -/
theorem C9_update_preserves_id_and_created_on (s : Store) (m : String) (post : PostData)
    (hpair : s.items.Pairwise fun a b => a.id ≠ b.id) :
    ((update s m post).1.items.map fun it => (it.id, it.created_on))
        = (s.items.map fun it => (it.id, it.created_on)) ∧
    ∀ t, ((create s [("text", t)]).1.items.map fun it => (it.id, it.created_on))
        = (s.items.map fun it => (it.id, it.created_on)) ++ [(s.nextId, s.clock)] := by
  refine ⟨?_, fun t => by simp [create, postGet]⟩
  by_cases hm : m = "POST"
  · subst hm
    cases hid : postGet post "id" with
    | none => simp [update, hid]
    | some idStr =>
      cases hp : parseNat? idStr with
      | none => simp [update, hid, hp]
      | some pk =>
        cases hfind : List.find? (fun a => a.id == pk) s.items with
        | none => simp [update, hid, hp, hfind]
        | some it =>
          rw [update_post_found s post idStr pk it hid hp hfind]
          simp only [List.map_map]
          refine List.map_congr_left fun a ha => ?_
          have hit : it ∈ s.items := List.mem_of_find?_eq_some hfind
          have hitid : it.id = pk := by simpa using List.find?_some hfind
          by_cases hid2 : a.id = pk
          · have heq : a = it := mem_id_unique hpair ha hit (hid2.trans hitid.symm)
            simp [Function.comp, hid2, heq, hitid]
          · simp [Function.comp, hid2]
  · simp [update, hm]

/-- C9 witness: an update on the demo store that toggles the flag and
rewrites the text changes neither the id nor the timestamp. -/
theorem C9_update_preserves_id_and_created_on_witness :
    ((update demoStore "POST" [("id", "1"), ("text", "new")]).1.items.map
        fun it => (it.id, it.created_on))
        = (demoStore.items.map fun it => (it.id, it.created_on)) ∧
    ∀ t, ((create demoStore [("text", t)]).1.items.map fun it => (it.id, it.created_on))
        = (demoStore.items.map fun it => (it.id, it.created_on))
            ++ [(demoStore.nextId, demoStore.clock)] :=
  C9_update_preserves_id_and_created_on demoStore "POST" [("id", "1"), ("text", "new")]
    (by simp [demoStore])

end Todo
